import Mathlib

/-!
Verification of the Cloud Logging data source backend (pkg/plugin/plugin.go).

The development shallowly embeds the Go backend: pure functions become Lean
functions, the provider client is an explicit record of responses, machine
integers are `Int`/`Nat`, fallible operations return `Except`/`Option`, and
side-effecting log output is modelled by returning the list of warning
messages alongside each result.

The Go standard library collaborators are modelled at their interfaces:
`time.Time.Format(time.RFC3339)` and RFC3339 parsing are embedded via the
Gregorian calendar algorithm used by Go's `time` package (400/100/4/1-year
cascade over days since January 1 of year 1), `strings.ToLower` as an
ASCII-wise character map, and `json.Marshal` of strings and string slices
as total rendering functions (they cannot fail on these types; a nil slice
renders as `null`).
-/

/-- Model of a Go `time.Time` instant: seconds since the Unix epoch,
nanoseconds within the second, and the zone offset (seconds east of UTC)
used when rendering. -/
structure GoTime where
  unixSec : Int
  nsec : Int
  offsetSec : Int
deriving DecidableEq, Repr

/-- Days from January 1 of year 1 reduced to the 400-year Gregorian cycle. -/
def cyc (days : Nat) : Nat := days % 146097

/-- Whole 100-year blocks inside the cycle (Go `absDate`: `n = d / daysPer100Years;
n -= n >> 2`). -/
def n100 (days : Nat) : Nat := cyc days / 36524 - cyc days / 36524 / 4

/-- Days remaining after removing the 100-year blocks. -/
def r100 (days : Nat) : Nat := cyc days - 36524 * n100 days

/-- Whole 4-year blocks inside the century. -/
def n4 (days : Nat) : Nat := r100 days / 1461

/-- Days remaining after removing the 4-year blocks. -/
def r4 (days : Nat) : Nat := r100 days - 1461 * n4 days

/-- Whole years inside the 4-year block (Go `absDate`: `n = d / 365; n -= n >> 2`). -/
def n1 (days : Nat) : Nat := r4 days / 365 - r4 days / 365 / 4

/-- The (1-based) Gregorian year containing the given day index, following
Go's `absDate` cascade. -/
def absYear (days : Nat) : Nat :=
  400 * (days / 146097) + 100 * n100 days + 4 * n4 days + n1 days + 1

/-- The zero-based day of year of the given day index. -/
def absYday (days : Nat) : Nat := r4 days - 365 * n1 days

/-- Days from the epoch (January 1 of year 1) to January 1 of `year`,
following Go's `daysSinceEpoch`. -/
def daysToYearStart (year : Nat) : Nat :=
  146097 * ((year - 1) / 400) + 36524 * ((year - 1) % 400 / 100) +
    1461 * ((year - 1) % 100 / 4) + 365 * ((year - 1) % 4)

/-- Propositional form of the Gregorian leap-year rule. -/
def LeapProp (y : Nat) : Prop := y % 4 = 0 ∧ (y % 100 ≠ 0 ∨ y % 400 = 0)

/-- Go's `isLeap`. -/
def isLeapYear (y : Nat) : Bool :=
  y % 4 == 0 && (y % 100 != 0 || y % 400 == 0)

/-- Cumulative day counts before each month in a common year
(Go's `daysBefore` table; index is the zero-based month). -/
def daysBeforeMonth (m : Nat) : Nat :=
  match m with
  | 0 => 0 | 1 => 31 | 2 => 59 | 3 => 90 | 4 => 120 | 5 => 151 | 6 => 181
  | 7 => 212 | 8 => 243 | 9 => 273 | 10 => 304 | 11 => 334 | _ => 365

/-- The (1-based) month containing a zero-based day of year, following the
month search in Go's `absDate` (February 29 is the special case `yday = 59`). -/
def monthOfYday (leap : Bool) (yday : Nat) : Nat :=
  if leap && yday == 59 then 2
  else
    let day := if leap && decide (yday > 59) then yday - 1 else yday
    let m0 := day / 31
    if day ≥ daysBeforeMonth (m0 + 1) then m0 + 2 else m0 + 1

/-- The (1-based) day of month for a zero-based day of year, following Go's
`absDate`. -/
def dayOfYday (leap : Bool) (yday : Nat) : Nat :=
  if leap && yday == 59 then 29
  else
    let day := if leap && decide (yday > 59) then yday - 1 else yday
    let m0 := day / 31
    if day ≥ daysBeforeMonth (m0 + 1) then day - daysBeforeMonth (m0 + 1) + 1
    else day - daysBeforeMonth m0 + 1

/-- Zero-based day of year from a (1-based) month and day, following the
date-to-days direction in Go's `Date`. -/
def ydayFromMonthDay (leap : Bool) (month day : Nat) : Nat :=
  daysBeforeMonth (month - 1) + (if leap && decide (month ≥ 3) then 1 else 0) + (day - 1)

/-- Days from the epoch for a civil date, following Go's `Date`. -/
def daysFromCivil (year month day : Nat) : Nat :=
  daysToYearStart year + ydayFromMonthDay (isLeapYear year) month day

/-- Correctness of the year cascade: it lands on a true year boundary, the
day of year is in range, day 365 only occurs in leap years, and days below
year 10000 map to years below 10000. -/
theorem absYearYday_spec (days : Nat) :
    1 ≤ absYear days ∧
    daysToYearStart (absYear days) + absYday days = days ∧
    absYday days ≤ 365 ∧
    (absYday days = 365 → LeapProp (absYear days)) ∧
    (days < 3652059 → absYear days < 10000) := by
  have h2 : n100 days ≤ 3 := by unfold n100 cyc; omega
  have h3 : 36524 * n100 days ≤ cyc days := by unfold n100; omega
  have h4 : r100 days ≤ 36524 := by unfold r100 n100 cyc; omega
  have h4' : r100 days = cyc days - 36524 * n100 days := rfl
  have h5 : n4 days ≤ 24 := by unfold n4; omega
  have h5' : 1461 * n4 days ≤ r100 days := by unfold n4; omega
  have h6 : r4 days ≤ 1460 := by unfold r4 n4; omega
  have h6' : r4 days = r100 days - 1461 * n4 days := rfl
  have h7 : n1 days ≤ 3 := by unfold n1; omega
  have h7' : 365 * n1 days ≤ r4 days := by unfold n1; omega
  have h8 : absYday days ≤ 365 := by unfold absYday n1; omega
  have h9 : daysToYearStart (absYear days) =
      146097 * (days / 146097) + 36524 * n100 days + 1461 * n4 days + 365 * n1 days := by
    unfold daysToYearStart absYear; omega
  have h10 : daysToYearStart (absYear days) + absYday days = days := by
    rw [h9]; unfold absYday; unfold cyc at h3 h4'; omega
  have h11 : absYday days = 365 → LeapProp (absYear days) := by
    intro hy
    have hr4 : r4 days = 1460 := by unfold absYday n1 at hy; omega
    have hn1 : n1 days = 3 := by unfold n1; omega
    have hn4 : 4 * n4 days + 4 = 100 → n100 days = 3 := by
      intro h
      have hr : r100 days = 36524 := by omega
      have hc : cyc days = 36524 * n100 days + 36524 := by
        rw [h4'] at hr; omega
      unfold n100 cyc at hc ⊢; omega
    constructor
    · unfold absYear; omega
    · unfold absYear; omega
  have h12 : days < 3652059 → absYear days < 10000 := by
    intro hd
    have hq : days / 146097 ≤ 24 := by omega
    by_cases hb : days / 146097 = 24 ∧ n100 days = 3 ∧ n4 days = 24 ∧ n1 days = 3
    · exfalso
      obtain ⟨b1, b2, b3, b4⟩ := hb
      have hr4 : 1095 ≤ r4 days := by unfold n1 at b4; omega
      have hr100 : 36159 ≤ r100 days := by unfold r4 at hr4; omega
      have hcy : 145731 ≤ cyc days := by rw [h4'] at hr100; omega
      unfold cyc at hcy
      omega
    · unfold absYear
      omega
  exact ⟨by unfold absYear; omega, h10, h8, h11, h12⟩

/-- Executable check for the month/day decomposition of a day of year. -/
def monthDayOK (leap : Bool) (yday : Nat) : Bool :=
  let m := monthOfYday leap yday
  let d := dayOfYday leap yday
  1 ≤ m && m ≤ 12 && 1 ≤ d && d ≤ 31 && ydayFromMonthDay leap m d == yday

set_option maxRecDepth 2000 in
/-- The month/day split of a day of year is a bijection onto valid dates:
checked exhaustively over both leap and common years. -/
theorem monthDay_round : ∀ leap : Bool, ∀ yday : Fin 366,
    (leap = false → yday.val < 365) → monthDayOK leap yday.val = true := by decide

/-- The Boolean leap test agrees with the propositional rule. -/
theorem isLeap_iff (y : Nat) : isLeapYear y = true ↔ LeapProp y := by
  simp [isLeapYear, LeapProp]

/-- Two-digit zero-padded decimal rendering. -/
def pad2 (n : Nat) : List Char := [Char.ofNat (48 + n / 10 % 10), Char.ofNat (48 + n % 10)]

/-- Four-digit zero-padded decimal rendering. -/
def pad4 (n : Nat) : List Char :=
  [Char.ofNat (48 + n / 1000 % 10), Char.ofNat (48 + n / 100 % 10),
   Char.ofNat (48 + n / 10 % 10), Char.ofNat (48 + n % 10)]

/-- RFC3339 zone rendering (layout `Z07:00`): `Z` for UTC, otherwise a
signed `hh:mm` offset. -/
def offsetChars (off : Int) : List Char :=
  if off = 0 then ['Z']
  else
    (if off < 0 then '-' else '+') ::
      (pad2 (off.natAbs / 3600) ++ [':'] ++ pad2 (off.natAbs % 3600 / 60))

/-- Seconds since January 1 of year 1 of the local (offset-shifted) reading
of the instant; Go's `abs`. The Unix epoch is 62135596800 such seconds. -/
def absSeconds (t : GoTime) : Nat := (t.unixSec + 62135596800 + t.offsetSec).toNat

/-- The civil year rendered for an instant. -/
def fmtYear (t : GoTime) : Nat := absYear (absSeconds t / 86400)

/-- Leap flag of the rendered year. -/
def fmtLeap (t : GoTime) : Bool := isLeapYear (fmtYear t)

/-- The zero-based day of year rendered for an instant. -/
def fmtYday (t : GoTime) : Nat := absYday (absSeconds t / 86400)

/-- Model of Go's `t.Format(time.RFC3339)`: a date-time at second precision
with an explicit offset, e.g. `2022-08-19T14:45:49Z`. -/
def formatRFC3339 (t : GoTime) : String :=
  ⟨pad4 (fmtYear t) ++ ['-'] ++ pad2 (monthOfYday (fmtLeap t) (fmtYday t)) ++ ['-'] ++
   pad2 (dayOfYday (fmtLeap t) (fmtYday t)) ++ ['T'] ++
   pad2 (absSeconds t % 86400 / 3600) ++ [':'] ++
   pad2 (absSeconds t % 86400 % 3600 / 60) ++ [':'] ++
   pad2 (absSeconds t % 86400 % 60) ++ offsetChars t.offsetSec⟩

/-- Decimal value of an ASCII digit. -/
def digitVal (c : Char) : Option Nat :=
  if 48 ≤ c.toNat ∧ c.toNat ≤ 57 then some (c.toNat - 48) else none

/-- Read a two-digit decimal number. -/
def read2 (a b : Char) : Option Nat := do
  let x ← digitVal a
  let y ← digitVal b
  pure (10 * x + y)

/-- Read a four-digit decimal number. -/
def read4 (a b c d : Char) : Option Nat := do
  let x ← digitVal a
  let y ← digitVal b
  let z ← digitVal c
  let w ← digitVal d
  pure (1000 * x + 100 * y + 10 * z + w)

/-- Parse an RFC3339 zone suffix: `Z` or a signed `hh:mm` offset. -/
def parseOffset (l : List Char) : Option Int :=
  match l with
  | [z] => if z = 'Z' then some 0 else none
  | [s, a, b, col, c, d] =>
    if col = ':' then
      (read2 a b).bind fun h =>
        (read2 c d).bind fun m =>
          if s = '+' then some (3600 * h + 60 * m)
          else if s = '-' then some (-(3600 * (h : Int) + 60 * m))
          else none
    else none
  | _ => none

/-- Model of RFC3339 parsing (Go `time.Parse(time.RFC3339, s)`): read the
civil fields at their fixed positions, recombine them through the civil
calendar, and subtract the offset; the parsed instant has zero nanoseconds. -/
def parseRFC3339 (s : String) : Option GoTime :=
  match s.data with
  | y1 :: y2 :: y3 :: y4 :: s1 :: m1 :: m2 :: s2 :: d1 :: d2 :: s3 ::
      h1 :: h2 :: s4 :: i1 :: i2 :: s5 :: c1 :: c2 :: rest =>
    if s1 = '-' ∧ s2 = '-' ∧ s3 = 'T' ∧ s4 = ':' ∧ s5 = ':' then
      (read4 y1 y2 y3 y4).bind fun y =>
        (read2 m1 m2).bind fun mo =>
          (read2 d1 d2).bind fun dy =>
            (read2 h1 h2).bind fun hh =>
              (read2 i1 i2).bind fun mi =>
                (read2 c1 c2).bind fun ss =>
                  (parseOffset rest).bind fun off =>
                    some { unixSec := ((daysFromCivil y mo dy) * 86400 +
                             hh * 3600 + mi * 60 + ss : Nat) - 62135596800 - off,
                           nsec := 0, offsetSec := off }
    else none
  | _ => none

/-- Rendering then reading a decimal digit is the identity. -/
theorem digitVal_pad (k : Nat) (h : k < 10) : digitVal (Char.ofNat (48 + k)) = some k := by
  interval_cases k <;> rfl

/-- Two-digit rendering round-trips. -/
theorem read2_pad2 (n : Nat) (h : n < 100) :
    read2 (Char.ofNat (48 + n / 10 % 10)) (Char.ofNat (48 + n % 10)) = some n := by
  rw [read2, digitVal_pad _ (by omega), digitVal_pad _ (by omega)]
  show some _ = some n
  congr 1
  omega

/-- Four-digit rendering round-trips. -/
theorem read4_pad4 (n : Nat) (h : n < 10000) :
    read4 (Char.ofNat (48 + n / 1000 % 10)) (Char.ofNat (48 + n / 100 % 10))
      (Char.ofNat (48 + n / 10 % 10)) (Char.ofNat (48 + n % 10)) = some n := by
  rw [read4, digitVal_pad _ (by omega), digitVal_pad _ (by omega),
    digitVal_pad _ (by omega), digitVal_pad _ (by omega)]
  show some _ = some n
  congr 1
  omega

/-- Zone rendering round-trips for minute-granular offsets below one day. -/
theorem parseOffset_format (off : Int) (h1 : -86400 < off) (h2 : off < 86400)
    (h3 : off % 60 = 0) : parseOffset (offsetChars off) = some off := by
  by_cases h0 : off = 0
  · subst h0; rfl
  · unfold offsetChars
    by_cases hneg : off < 0
    · rw [if_neg h0, if_pos hneg]
      simp only [pad2, List.cons_append, List.nil_append, parseOffset]
      rw [read2_pad2 _ (by omega), read2_pad2 _ (by omega)]
      simp only [Option.some_bind, reduceCtorEq, reduceIte]
      rw [if_neg (show ¬ ('-' : Char) = '+' by decide)]
      congr 1
      omega
    · rw [if_neg h0, if_neg hneg]
      simp only [pad2, List.cons_append, List.nil_append, parseOffset]
      rw [read2_pad2 _ (by omega), read2_pad2 _ (by omega)]
      simp only [Option.some_bind, reduceCtorEq, reduceIte]
      congr 1
      omega

/-- RFC3339 rendering round-trips: parsing the rendered string recovers the
instant truncated to whole seconds, for any instant between year 1 and year
9999 whose offset is minute-granular. -/
theorem parse_format (t : GoTime)
    (h1 : 0 ≤ t.unixSec + 62135596800 + t.offsetSec)
    (h2 : t.unixSec + 62135596800 + t.offsetSec < 315537897600)
    (h3 : t.offsetSec % 60 = 0) (h4 : -86400 < t.offsetSec) (h5 : t.offsetSec < 86400) :
    parseRFC3339 (formatRFC3339 t) = some ⟨t.unixSec, 0, t.offsetSec⟩ := by
  have habs : (absSeconds t : Int) = t.unixSec + 62135596800 + t.offsetSec := by
    unfold absSeconds; omega
  have hdlt : absSeconds t / 86400 < 3652059 := by omega
  obtain ⟨hy1, hsum, hyle, hyleap, hybound⟩ := absYearYday_spec (absSeconds t / 86400)
  have hylt : absYear (absSeconds t / 86400) < 10000 := hybound hdlt
  have himp : isLeapYear (fmtYear t) = false → absYday (absSeconds t / 86400) < 365 := by
    intro hfalse
    rcases Nat.lt_or_ge (absYday (absSeconds t / 86400)) 365 with h | h
    · exact h
    · exfalso
      have h365 : absYday (absSeconds t / 86400) = 365 := by omega
      have hlp := hyleap h365
      rw [← isLeap_iff] at hlp
      unfold fmtYear at hfalse
      rw [hfalse] at hlp
      exact Bool.false_ne_true hlp
  have hmd := monthDay_round (isLeapYear (fmtYear t)) ⟨fmtYday t, by unfold fmtYday; omega⟩
    (by intro hf; unfold fmtYday; exact himp hf)
  simp only [monthDayOK, Bool.and_eq_true, beq_iff_eq, decide_eq_true_eq] at hmd
  obtain ⟨⟨⟨⟨hm1, hm12⟩, hd1⟩, hd31⟩, hyeq⟩ := hmd
  have hcivil : daysFromCivil (fmtYear t)
      (monthOfYday (isLeapYear (fmtYear t)) (fmtYday t))
      (dayOfYday (isLeapYear (fmtYear t)) (fmtYday t)) =
      absSeconds t / 86400 := by
    unfold daysFromCivil
    rw [hyeq]
    unfold fmtYear fmtYday
    exact hsum
  unfold formatRFC3339 parseRFC3339 fmtLeap
  simp only [pad4, pad2, List.cons_append, List.nil_append]
  rw [read4_pad4 _ (by unfold fmtYear; omega), read2_pad2 _ (by omega),
    read2_pad2 _ (by omega), read2_pad2 _ (by omega), read2_pad2 _ (by omega),
    read2_pad2 _ (by omega)]
  rw [if_pos (show True ∧ True ∧ True ∧ True ∧ True from
    ⟨True.intro, True.intro, True.intro, True.intro, True.intro⟩)]
  simp only [Option.some_bind]
  rw [parseOffset_format _ h4 h5 h3]
  simp only [Option.some_bind]
  rw [hcivil]
  simp only [Option.some.injEq, GoTime.mk.injEq]
  refine ⟨?_, True.intro, True.intro⟩
  omega

/-- Model of `strings.ToLower` restricted to ASCII letters (the dispatcher
only ever compares ASCII path strings). -/
def toLowerChar (c : Char) : Char :=
  if 65 ≤ c.toNat ∧ c.toNat ≤ 90 then Char.ofNat (c.toNat + 32) else c

/-- Lower-case a string character-wise. -/
def lowerAscii (s : String) : String := ⟨s.data.map toLowerChar⟩

/-- Model of `json.Marshal` on a `string` (always succeeds). Escaping of
special characters is irrelevant to the dispatcher contract. -/
def jsonString (s : String) : String := "\"" ++ s ++ "\""

/-- Model of `json.Marshal` on a `[]string`: a nil slice (carried by the
error path) renders as `null`, a present slice as a JSON array. -/
def jsonStringList (l : Option (List String)) : String :=
  match l with
  | none => "null"
  | some xs => "[" ++ String.intercalate "," (xs.map jsonString) ++ "]"

/-- The time window of a Grafana data query (`backend.TimeRange`). -/
structure GoTimeRange where
  timeFrom : GoTime
  timeTo : GoTime
deriving DecidableEq

/-- The fields the backend parses from one query's JSON payload
(`queryModel`: `queryText`, `projectId`). -/
structure QueryModel where
  queryText : String
  projectId : String
deriving DecidableEq

/-- One incoming `backend.DataQuery`. The raw JSON bytes are modelled by the
outcome of `json.Unmarshal` into `queryModel`: `Except.error` is a malformed
payload carrying the unmarshal error text. -/
structure DataQuery where
  refID : String
  json : Except String QueryModel
  maxDataPoints : Int
  timeRange : GoTimeRange

/-- The provider request (`cloudlogging.Query`) built by the backend:
project scope, filter text, record limit, and the two rendered time bounds. -/
structure CLQuery where
  projectID : String
  filter : String
  limit : Int
  timeFrom : String
  timeTo : String
deriving DecidableEq

/-- The payload variants of a provider log record (`LogEntry` oneof). The
proto variant carries the outcome of decoding it to text, since the decoder
itself is an external collaborator. -/
inductive GoPayload where
  | text (s : String)
  | structured (canonical : String)
  | proto (decoded : Except String String)

/-- A monitored-resource descriptor: type plus labels. -/
structure MonitoredResource where
  rtype : String
  labels : List (String × String)

/-- A provider-native log record (`loggingpb.LogEntry`) with the fields the
backend reads. Severity is carried as the textual enum name (e.g. `INFO`). -/
structure LogEntry where
  insertId : String
  timestamp : GoTime
  receiveTimestamp : GoTime
  severity : String
  resource : Option MonitoredResource
  labels : List (String × String)
  trace : String
  payload : GoPayload

/-- The provider client (`cloudlogging.API`) modelled as a record of its
read operations' outcomes. -/
structure ClientModel where
  listLogs : CLQuery → Except String (List LogEntry)
  listProjects : Except String (List String)
  listProjectBuckets : String → Except String (List String)
  listProjectBucketViews : String → String → Except String (List String)

/-- A resource request: the opaque path plus the parsed query parameters of
the request URL (the embedded `CallResource` reads only the path). -/
structure CallResourceRequest where
  path : String
  params : List (String × String)

/-- An HTTP-shaped resource response: status code and body bytes. -/
structure CallResourceResponse where
  status : Nat
  body : String
deriving DecidableEq

/-- Warning logged when the GCE default-project lookup fails. -/
def gceWarnMsg (e : String) : String := "problem getting GCE default project: " ++ e

/-- Warning logged when listing projects fails. -/
def projWarnMsg (e : String) : String := "problem listing projects: " ++ e

/-- Embedding of `CloudLoggingDatasource.CallResource`. The GCE
default-project lookup collaborator is passed as its outcome (project
string plus optional error). The second component of the result is the
list of warnings written to the logger. -/
def CallResource (gceLookup : String × Option String) (client : ClientModel)
    (req : CallResourceRequest) : CallResourceResponse × List String :=
  if req.path = "gceDefaultProject" then
    match gceLookup with
    | (proj, some e) => (⟨200, jsonString proj⟩, [gceWarnMsg e])
    | (proj, none) => (⟨200, jsonString proj⟩, [])
  else if lowerAscii req.path ≠ "projects" then
    (⟨404, "No such path"⟩, [])
  else
    match client.listProjects with
    | Except.error e => (⟨200, jsonStringList none⟩, [projWarnMsg e])
    | Except.ok projects => (⟨200, jsonStringList (some projects)⟩, [])

/-- The value of a single field of an output frame. -/
inductive FieldValue where
  | timeVal (t : GoTime)
  | strVal (s : String)

/-- One column of an output frame: name, attached label metadata, and its
values (the backend always creates one-element value slices). -/
structure FrameField where
  name : String
  labels : List (String × String)
  values : List FieldValue

/-- One output frame: name, ordered columns, and the preferred
visualization hint stored in the frame metadata. -/
structure Frame where
  name : String
  fields : List FrameField
  visType : Option String

/-- One query's response (`backend.DataResponse`): optional error and the
list of frames. -/
structure DataResponse where
  error : Option String
  frames : List Frame

/-- Modelled from the spec: `GetLogEntryMessage` (package
`pkg/plugin/cloudlogging`, not present under `src/`) collapses the payload
variants to one body string per record: text verbatim, structured payloads
in their canonical string form, proto payloads through the decoder whose
failure skips the record. -/
def GetLogEntryMessage (e : LogEntry) : Except String String :=
  match e.payload with
  | GoPayload.text s => Except.ok s
  | GoPayload.structured s => Except.ok s
  | GoPayload.proto r => r

/-- Final path segment of a trace reference: the text after the last `/`
(the whole string when it has no `/`). -/
def lastSegment (s : String) : String :=
  ⟨(s.data.reverse.takeWhile (fun c => c != '/')).reverse⟩

/-- Namespaced label key for user- and resource-supplied labels. -/
def quoteKey (k : String) : String := "labels.\"" ++ k ++ "\""

/-- Modelled from the spec: `GetLogLabels` (package
`pkg/plugin/cloudlogging`, not present under `src/`) derives the label map:
`trace` verbatim plus `traceId` as the final path segment when the trace
reference is non-empty; `id` from the record identifier; `level` as the
lower-cased severity; `resource.type` plus namespaced resource labels when
a resource descriptor is present; namespaced user labels; `textPayload` for
text payloads. The Go map is unordered, so the list order here is a
representation choice. -/
def GetLogLabels (e : LogEntry) : List (String × String) :=
  (if e.trace = "" then [] else
    [("trace", e.trace), ("traceId", lastSegment e.trace)]) ++
  [("id", e.insertId), ("level", lowerAscii e.severity)] ++
  (match e.resource with
   | some r => ("resource.type", r.rtype) :: r.labels.map (fun p => (quoteKey p.1, p.2))
   | none => []) ++
  e.labels.map (fun p => (quoteKey p.1, p.2)) ++
  (match e.payload with
   | GoPayload.text s => [("textPayload", s)]
   | _ => [])

/-- Lookup in an association list with string keys (the observable content
of a Go map). -/
def lookupStr {α : Type} : List (String × α) → String → Option α
  | [], _ => none
  | (k', v) :: rest, k => if k' = k then some v else lookupStr rest k

/-- The frame built for one record: named by the record identifier, with a
single-value time column and a single-value content column carrying the
label map, and the `logs` visualization hint. -/
def timeField (ts : GoTime) : FrameField :=
  { name := "time", labels := [], values := [FieldValue.timeVal ts] }

/-- The content column of a frame. -/
def contentField (labels : List (String × String)) (body : String) : FrameField :=
  { name := "content", labels := labels, values := [FieldValue.strVal body] }

/-- Assemble one output frame for a decoded record. -/
def mkFrame (e : LogEntry) (body : String) : Frame :=
  { name := e.insertId,
    fields := [timeField e.timestamp, contentField (GetLogLabels e) body],
    visType := some ("logs") }

/-- The frame-building loop of `query`: one frame per record whose payload
decodes, skipped records contribute a logged warning instead, provider
order preserved. Returns the frames and the warnings. -/
def buildFrames : List LogEntry → List Frame × List String
  | [] => ([], [])
  | e :: rest =>
    match GetLogEntryMessage e with
    | Except.error err =>
      ((buildFrames rest).1, ("failed getting log message: " ++ err) :: (buildFrames rest).2)
    | Except.ok body => (mkFrame e body :: (buildFrames rest).1, (buildFrames rest).2)

/-- The provider request built by `query` from the parsed model and the
incoming data query: limit is `MaxDataPoints` unchanged and both time
bounds are rendered with the RFC3339 format. -/
def compileRequest (q : QueryModel) (dq : DataQuery) : CLQuery :=
  { projectID := q.projectId,
    filter := q.queryText,
    limit := dq.maxDataPoints,
    timeFrom := formatRFC3339 dq.timeRange.timeFrom,
    timeTo := formatRFC3339 dq.timeRange.timeTo }

/-- Embedding of `CloudLoggingDatasource.query`: unmarshal failure becomes
the response error; a provider failure is wrapped with the `query: `
context; otherwise the frames are built from the returned records. -/
def query (client : ClientModel) (dq : DataQuery) : DataResponse :=
  match dq.json with
  | Except.error e => { error := some e, frames := [] }
  | Except.ok q =>
    match client.listLogs (compileRequest q dq) with
    | Except.error e => { error := some ("query: " ++ e), frames := [] }
    | Except.ok logs => { error := none, frames := (buildFrames logs).1 }

/-- Map insertion with overwrite: the observable effect of
`response.Responses[q.RefID] = res` on a Go map. -/
def insertResp : List (String × DataResponse) → String → DataResponse →
    List (String × DataResponse)
  | [], k, v => [(k, v)]
  | (k', v') :: rest, k, v =>
    if k' = k then (k, v) :: rest else (k', v') :: insertResp rest k v

/-- The response map built by `QueryData`: one `query` call per incoming
query, stored under its `RefID`. -/
def respMap (client : ClientModel) (qs : List DataQuery) : List (String × DataResponse) :=
  qs.foldl (fun m dq => insertResp m dq.refID (query client dq)) []

/-- Embedding of `CloudLoggingDatasource.QueryData`: the response map plus
the top-level error, which the code always returns as nil. -/
def QueryData (client : ClientModel) (qs : List DataQuery) :
    List (String × DataResponse) × Option String :=
  (respMap client qs, none)

/-- The last query in a batch carrying a given refID (Go map assignment
semantics: later writes win). -/
def lastWith (qs : List DataQuery) (k : String) : Option DataQuery :=
  qs.foldl (fun acc dq => if dq.refID = k then some dq else acc) none

/-- A key is in the map after insertion iff it was there or is the inserted
key. -/
theorem insertResp_mem_keys (m : List (String × DataResponse)) (k : String)
    (v : DataResponse) (k' : String) :
    k' ∈ (insertResp m k v).map Prod.fst ↔ k' ∈ m.map Prod.fst ∨ k' = k := by
  induction m with
  | nil => simp [insertResp]
  | cons p rest ih =>
    obtain ⟨pk, pv⟩ := p
    by_cases h : pk = k
    · subst h
      simp [insertResp]
      tauto
    · simp [insertResp, h, ih]
      tauto

/-- Insertion preserves key uniqueness. -/
theorem insertResp_nodup (m : List (String × DataResponse)) (k : String)
    (v : DataResponse) (h : (m.map Prod.fst).Nodup) :
    ((insertResp m k v).map Prod.fst).Nodup := by
  induction m with
  | nil => simp [insertResp]
  | cons p rest ih =>
    obtain ⟨pk, pv⟩ := p
    simp only [List.map_cons, List.nodup_cons] at h
    by_cases hh : pk = k
    · subst hh
      simpa [insertResp] using h
    · simp only [insertResp, if_neg hh, List.map_cons, List.nodup_cons]
      refine ⟨?_, ih h.2⟩
      rw [insertResp_mem_keys]
      rintro (hm | he)
      · exact h.1 hm
      · exact hh he

/-- Inserting a fresh key grows the map by one entry. -/
theorem insertResp_length (m : List (String × DataResponse)) (k : String)
    (v : DataResponse) (h : k ∉ m.map Prod.fst) :
    (insertResp m k v).length = m.length + 1 := by
  induction m with
  | nil => rfl
  | cons p rest ih =>
    obtain ⟨pk, pv⟩ := p
    simp only [List.map_cons, List.mem_cons] at h
    push_neg at h
    have hne : ¬ pk = k := fun he => h.1 he.symm
    simp only [insertResp, if_neg hne, List.length_cons]
    rw [ih h.2]

/-- Lookup of the inserted key yields the inserted value. -/
theorem lookup_insert_self (m : List (String × DataResponse)) (k : String)
    (v : DataResponse) : lookupStr (insertResp m k v) k = some v := by
  induction m with
  | nil => simp [insertResp, lookupStr]
  | cons p rest ih =>
    obtain ⟨pk, pv⟩ := p
    by_cases h : pk = k
    · subst h
      simp [insertResp, lookupStr]
    · simp [insertResp, lookupStr, h, ih]

/-- Lookup of other keys is unchanged by insertion. -/
theorem lookup_insert_other (m : List (String × DataResponse)) (k : String)
    (v : DataResponse) (k' : String) (h : k ≠ k') :
    lookupStr (insertResp m k v) k' = lookupStr m k' := by
  induction m with
  | nil => simp [insertResp, lookupStr, h]
  | cons p rest ih =>
    obtain ⟨pk, pv⟩ := p
    by_cases hh : pk = k
    · subst hh
      simp [insertResp, lookupStr, h, ih]
    · simp [insertResp, lookupStr, hh, ih]

/-- Keys of the response map are exactly the refIDs of the batch. -/
theorem respMap_fold_mem (client : ClientModel) (qs : List DataQuery)
    (m : List (String × DataResponse)) (k : String) :
    (k ∈ (qs.foldl (fun m dq => insertResp m dq.refID (query client dq)) m).map Prod.fst ↔
      k ∈ m.map Prod.fst ∨ k ∈ qs.map DataQuery.refID) := by
  induction qs generalizing m with
  | nil => simp
  | cons dq qs ih =>
    simp only [List.foldl_cons, List.map_cons, List.mem_cons]
    rw [ih, insertResp_mem_keys]
    tauto

/-- The response map never holds two entries with the same key. -/
theorem respMap_fold_nodup (client : ClientModel) (qs : List DataQuery)
    (m : List (String × DataResponse)) (h : (m.map Prod.fst).Nodup) :
    ((qs.foldl (fun m dq => insertResp m dq.refID (query client dq)) m).map Prod.fst).Nodup := by
  induction qs generalizing m with
  | nil => exact h
  | cons dq qs ih => exact ih _ (insertResp_nodup _ _ _ h)

/-- With pairwise distinct refIDs disjoint from the accumulator keys, the
fold adds exactly one entry per query. -/
theorem respMap_fold_length (client : ClientModel) (qs : List DataQuery)
    (m : List (String × DataResponse)) (hnd : (qs.map DataQuery.refID).Nodup)
    (hdisj : ∀ dq ∈ qs, dq.refID ∉ m.map Prod.fst) :
    (qs.foldl (fun m dq => insertResp m dq.refID (query client dq)) m).length =
      m.length + qs.length := by
  induction qs generalizing m with
  | nil => simp
  | cons dq qs ih =>
    simp only [List.map_cons, List.nodup_cons] at hnd
    simp only [List.foldl_cons, List.length_cons]
    rw [ih _ hnd.2, insertResp_length _ _ _ (hdisj dq (List.mem_cons_self dq qs))]
    · omega
    · intro q hq
      rw [insertResp_mem_keys]
      rintro (hm | he)
      · exact hdisj q (List.mem_cons_of_mem dq hq) hm
      · exact hnd.1 (he ▸ List.mem_map_of_mem DataQuery.refID hq)

/-- Folding the last-write tracker from any accumulator. -/
theorem lastWith_from (qs : List DataQuery) (k : String) (acc : Option DataQuery) :
    qs.foldl (fun a dq => if dq.refID = k then some dq else a) acc =
      match lastWith qs k with
      | some dq => some dq
      | none => acc := by
  induction qs generalizing acc with
  | nil => rfl
  | cons dq qs ih =>
    simp only [List.foldl_cons, lastWith]
    rw [ih, ih (if dq.refID = k then some dq else none)]
    cases h : lastWith qs k <;> by_cases hr : dq.refID = k <;> simp [hr]

/-- A refID absent from the batch has no last writer. -/
theorem lastWith_eq_none (qs : List DataQuery) (k : String)
    (h : k ∉ qs.map DataQuery.refID) : lastWith qs k = none := by
  induction qs with
  | nil => rfl
  | cons dq qs ih =>
    simp only [List.map_cons, List.mem_cons] at h
    push_neg at h
    unfold lastWith
    simp only [List.foldl_cons]
    rw [if_neg (fun he => h.1 he.symm)]
    exact ih h.2

/-- With pairwise distinct refIDs, each query is its own last writer. -/
theorem lastWith_of_nodup (qs : List DataQuery) (hnd : (qs.map DataQuery.refID).Nodup)
    (dq : DataQuery) (hmem : dq ∈ qs) : lastWith qs dq.refID = some dq := by
  induction qs with
  | nil => cases hmem
  | cons q qs ih =>
    simp only [List.map_cons, List.nodup_cons] at hnd
    rcases List.mem_cons.mp hmem with he | hm
    · subst he
      unfold lastWith
      simp only [List.foldl_cons, if_pos rfl]
      rw [lastWith_from, lastWith_eq_none qs dq.refID hnd.1]
      simp
    · unfold lastWith
      simp only [List.foldl_cons]
      rw [lastWith_from]
      rw [ih hnd.2 hm]

/-- Lookup in the folded response map: the last query with that refID wins;
keys never written keep their accumulator binding. -/
theorem respMap_fold_lookup (client : ClientModel) (qs : List DataQuery)
    (m : List (String × DataResponse)) (k : String) :
    lookupStr (qs.foldl (fun m dq => insertResp m dq.refID (query client dq)) m) k =
      match lastWith qs k with
      | some dq => some (query client dq)
      | none => lookupStr m k := by
  induction qs generalizing m with
  | nil => rfl
  | cons dq qs ih =>
    simp only [List.foldl_cons]
    unfold lastWith
    simp only [List.foldl_cons]
    rw [ih, lastWith_from]
    cases h : lastWith qs k
    · by_cases hr : dq.refID = k
      · subst hr
        simp [lookup_insert_self]
      · simp [hr, lookup_insert_other _ _ _ _ hr]
    · rfl

/-- The frame list is the in-order image of the successfully decoded
records. -/
theorem buildFrames_frames (logs : List LogEntry) :
    (buildFrames logs).1 = logs.filterMap (fun e =>
      match GetLogEntryMessage e with
      | Except.ok body => some (mkFrame e body)
      | Except.error _ => none) := by
  induction logs with
  | nil => rfl
  | cons e rest ih =>
    unfold buildFrames
    cases h : GetLogEntryMessage e <;> simp [List.filterMap_cons, h, ih]

/-- One warning is logged per record that fails to decode. -/
theorem buildFrames_warnings (logs : List LogEntry) :
    (buildFrames logs).2.length = (logs.filter (fun e =>
      match GetLogEntryMessage e with
      | Except.ok _ => false
      | Except.error _ => true)).length := by
  induction logs with
  | nil => rfl
  | cons e rest ih =>
    unfold buildFrames
    cases h : GetLogEntryMessage e <;> simp [List.filter_cons, h, ih]

/-- Taking while a predicate holds stops exactly at the first failing
element. -/
theorem takeWhile_all_stop (p : Char → Bool) (l₁ : List Char) (x : Char)
    (l₂ : List Char) (h1 : ∀ c ∈ l₁, p c = true) (h2 : p x = false) :
    (l₁ ++ x :: l₂).takeWhile p = l₁ := by
  induction l₁ with
  | nil => simp [List.takeWhile_cons, h2]
  | cons c cs ih =>
    simp only [List.cons_append, List.takeWhile_cons, h1 c (List.mem_cons_self c cs)]
    rw [ih (fun d hd => h1 d (List.mem_cons_of_mem c hd))]
    simp

/-- The final path segment of `a ++ "/" ++ b` is `b` when `b` itself has no
separator. -/
theorem lastSegment_append (a b : String) (h : ∀ c ∈ b.data, c ≠ '/') :
    lastSegment (a ++ "/" ++ b) = b := by
  unfold lastSegment
  have hd : (a ++ "/" ++ b).data = a.data ++ '/' :: b.data := by
    simp [String.data_append]
  rw [hd]
  have hrev : (a.data ++ '/' :: b.data).reverse =
      b.data.reverse ++ '/' :: a.data.reverse := by
    simp [List.reverse_append]
  rw [hrev]
  rw [takeWhile_all_stop _ _ _ _
    (fun c hc => by simpa using h c (List.mem_reverse.mp hc)) rfl]
  rw [List.reverse_reverse]

/-- A provider double whose four read operations all succeed, with the
canned lists used in `TestCallResource`. -/
def clientOk : ClientModel :=
  { listLogs := fun _ => Except.ok [],
    listProjects := Except.ok ["project1", "project2"],
    listProjectBuckets := fun _ => Except.ok ["bucket1", "bucket2"],
    listProjectBucketViews := fun _ _ => Except.ok ["view1", "view2"] }

/-- A provider double whose project listing fails with a permission error. -/
def clientProjErr : ClientModel :=
  { clientOk with listProjects := Except.error ("permission denied") }

/-- The query model of the test scenario. -/
def qm0 : QueryModel :=
  { queryText := "resource.type = \"testing\"", projectId := "testing" }

/-- A one-hour time window ending at the test instant, the start rendered
with a one-hour zone offset. -/
def dqTime : DataQuery :=
  { refID := "test", json := Except.ok qm0, maxDataPoints := 20,
    timeRange := { timeFrom := { unixSec := 1660916749, nsec := 500000000, offsetSec := 3600 },
                   timeTo := { unixSec := 1660920349, nsec := 373000000, offsetSec := 0 } } }

/-- The same query with a negative record limit. -/
def dqNeg : DataQuery := { dqTime with maxDataPoints := -5 }

/-- The single log record of `TestQueryData_SingleLog`. -/
def entryOk : LogEntry :=
  { insertId := "b6f39be2-b298-44da-9001-1f04e5756fa0",
    timestamp := { unixSec := 1660920349, nsec := 373000000, offsetSec := 0 },
    receiveTimestamp := { unixSec := 1660920349, nsec := 373000000, offsetSec := 0 },
    severity := "INFO",
    resource := some { rtype := "gce_instance", labels := [] },
    labels := [("instance_id", "unique"), ("custom_label", "custom_value")],
    trace := "projects/xxx/traces/c0e331eab1515bbcd1b8306029902ff7",
    payload := GoPayload.text ("Full log message from this GCE instance") }

/-- A record whose proto payload fails to decode. -/
def entryBad : LogEntry :=
  { entryOk with
    insertId := "bad",
    payload := GoPayload.proto (Except.error ("unsupported payload type")) }

/-- A provider double returning one good and one undecodable record. -/
def clientLogs : ClientModel :=
  { clientOk with listLogs := fun _ => Except.ok [entryOk, entryBad] }

/-- A well-formed query keyed `A`. -/
def dqA : DataQuery :=
  { refID := "A", json := Except.ok qm0, maxDataPoints := 1,
    timeRange := { timeFrom := { unixSec := 0, nsec := 0, offsetSec := 0 },
                   timeTo := { unixSec := 0, nsec := 0, offsetSec := 0 } } }

/-- A second query that reuses the refID `A`. -/
def dqB : DataQuery := { dqA with maxDataPoints := 2 }

/-- A malformed query keyed `B`: its JSON payload fails to unmarshal. -/
def dqErr : DataQuery :=
  { dqA with
    refID := "B",
    json := Except.error ("invalid character 'N' looking for beginning of value") }

/-- C1: the resource dispatcher is claimed to route `logbuckets` (with a
`ProjectId` parameter) to `ListProjectBuckets` and `logviews` to
`ListProjectBucketViews`, validating required parameters first. The
embedded `CallResource` instead answers status 404 with body `No such
path` for both paths, never consulting the provider, although the
repository's own `TestCallResource` expects status 200 with the listed
names on these inputs. -/
theorem c1_logbuckets_logviews_not_routed :
    CallResource ("", none) clientOk
        { path := "logbuckets",
          params := [("ProjectId", "test-project"), ("BucketId", "test-bucket")] } =
      ({ status := 404, body := "No such path" }, []) ∧
    CallResource ("", none) clientOk
        { path := "logviews",
          params := [("ProjectId", "test-project"), ("BucketId", "test-bucket")] } =
      ({ status := 404, body := "No such path" }, []) := by
  constructor <;> rfl

/-- C2: a provider failure on the `projects` path is claimed to produce a
bad-gateway response with a fixed JSON error body. The embedded code
instead logs the warning and responds status 200 with body `null` (the
JSON encoding of the nil slice carried through the error branch), as the
evaluation below shows; `TestCallResource` expects status 502 with the
fixed error body on this input. -/
theorem c2_projects_provider_error_masked :
    CallResource ("", none) clientProjErr { path := "projects", params := [] } =
      ({ status := 200, body := "null" }, [projWarnMsg ("permission denied")]) := rfl

/-- C3: one frame per successfully decoded record, named by the record
identifier, with exactly a single-value time column (the record's primary
timestamp) and a single-value content column carrying the body and the
label map as column metadata; frames keep provider order; undecodable
records yield no frame but one logged warning, and processing continues. -/
theorem c3_one_frame_per_decoded_record (client : ClientModel) (dq : DataQuery)
    (q : QueryModel) (logs : List LogEntry) (hq : dq.json = Except.ok q)
    (hl : client.listLogs (compileRequest q dq) = Except.ok logs) :
    (query client dq).frames = (buildFrames logs).1 ∧
    (buildFrames logs).1 = logs.filterMap (fun e =>
      match GetLogEntryMessage e with
      | Except.ok body => some (mkFrame e body)
      | Except.error _ => none) ∧
    (∀ e body, (mkFrame e body).name = e.insertId ∧
      (mkFrame e body).fields = [timeField e.timestamp, contentField (GetLogLabels e) body] ∧
      (timeField e.timestamp).values = [FieldValue.timeVal e.timestamp] ∧
      (contentField (GetLogLabels e) body).values = [FieldValue.strVal body] ∧
      (contentField (GetLogLabels e) body).labels = GetLogLabels e ∧
      (mkFrame e body).visType = some ("logs")) ∧
    (buildFrames logs).2.length = (logs.filter (fun e =>
      match GetLogEntryMessage e with
      | Except.ok _ => false
      | Except.error _ => true)).length := by
  refine ⟨?_, buildFrames_frames logs, ?_, buildFrames_warnings logs⟩
  · simp [query, hq, hl]
  · intro e body
    exact ⟨rfl, rfl, rfl, rfl, rfl, rfl⟩

/-- Witness for C3 at the test scenario: one good record, one undecodable
record. -/
theorem c3_one_frame_per_decoded_record_witness :
    (dqTime.json = Except.ok qm0) ∧
    (clientLogs.listLogs (compileRequest qm0 dqTime) = Except.ok [entryOk, entryBad]) ∧
    (query clientLogs dqTime).frames = (buildFrames [entryOk, entryBad]).1 := by
  refine ⟨rfl, rfl, ?_⟩
  exact (c3_one_frame_per_decoded_record clientLogs dqTime qm0 [entryOk, entryBad] rfl rfl).1

/-- C4: for a non-empty trace reference the label map holds `trace`
verbatim and `traceId` as the final path segment; in particular for a
reference of the form `<prefix>/<id>` with `<id>` free of separators the
derived segment is exactly `<id>`. -/
theorem c4_trace_labels (e : LogEntry) (hne : e.trace ≠ "") :
    lookupStr (GetLogLabels e) "trace" = some e.trace ∧
    lookupStr (GetLogLabels e) "traceId" = some (lastSegment e.trace) ∧
    (∀ a b : String, e.trace = a ++ "/" ++ b → (∀ c ∈ b.data, c ≠ '/') →
      lastSegment e.trace = b) := by
  refine ⟨?_, ?_, ?_⟩
  · unfold GetLogLabels
    rw [if_neg hne]
    simp [lookupStr]
  · unfold GetLogLabels
    rw [if_neg hne]
    simp [lookupStr]
  · intro a b hab hb
    rw [hab]
    exact lastSegment_append a b hb

/-- Witness for C4 at the test record: the structured trace path yields
exactly its trailing segment. -/
theorem c4_trace_labels_witness :
    (entryOk.trace ≠ "") ∧
    lookupStr (GetLogLabels entryOk) "trace" =
      some ("projects/xxx/traces/c0e331eab1515bbcd1b8306029902ff7") ∧
    lookupStr (GetLogLabels entryOk) "traceId" =
      some ("c0e331eab1515bbcd1b8306029902ff7") := by
  have h := c4_trace_labels entryOk (by decide)
  refine ⟨by decide, h.1, ?_⟩
  have h3 := h.2.2 ("projects/xxx/traces") ("c0e331eab1515bbcd1b8306029902ff7")
    (by decide) (by decide)
  rw [h.2.1, h3]

/-- Counterexample to C5 as stated: two queries sharing refID `A` yield a
single response entry, not two, because the second map write overwrites the
first. -/
theorem c5_duplicate_refid_counterexample :
    (QueryData clientOk [dqA, dqB]).1.length = 1 ∧
    ¬ (QueryData clientOk [dqA, dqB]).1.length = 2 := by
  constructor <;> decide

/-- C5 (amended): for every batch whose refIDs are pairwise distinct,
QueryData returns no top-level error and exactly one response per query,
each keyed by its refID and equal to that query's own result; a malformed
query's response carries the unmarshal error with empty frames while every
other response is still its own query's result; the empty batch yields an
empty map and no error. -/
theorem c5_batch_responses (client : ClientModel) (qs : List DataQuery)
    (hnd : (qs.map DataQuery.refID).Nodup) :
    (QueryData client qs).2 = none ∧
    (QueryData client qs).1.length = qs.length ∧
    (∀ dq ∈ qs, lookupStr (QueryData client qs).1 dq.refID = some (query client dq)) ∧
    (∀ dq ∈ qs, ∀ e, dq.json = Except.error e →
      (query client dq).error = some e ∧ (query client dq).frames = []) ∧
    QueryData client [] = ([], none) := by
  refine ⟨rfl, ?_, ?_, ?_, rfl⟩
  · have h := respMap_fold_length client qs [] hnd (by simp)
    simpa using h
  · intro dq hmem
    show lookupStr (qs.foldl _ []) dq.refID = _
    rw [respMap_fold_lookup, lastWith_of_nodup qs hnd dq hmem]
  · intro dq hmem e he
    constructor <;> simp [query, he]

/-- Witness for C5 at a two-query batch with distinct refIDs, the second
query malformed. -/
theorem c5_batch_responses_witness :
    (([dqA, dqErr].map DataQuery.refID).Nodup) ∧
    (QueryData clientOk [dqA, dqErr]).1.length = 2 ∧
    (query clientOk dqErr).error =
      some ("invalid character 'N' looking for beginning of value") ∧
    (query clientOk dqErr).frames = [] := by
  have h := c5_batch_responses clientOk [dqA, dqErr] (by decide)
  have he := h.2.2.2.1 dqErr (by simp) _ rfl
  exact ⟨by decide, h.2.1, he.1, he.2⟩

/-- The in-range side condition for RFC3339 round-tripping: the instant
lies between year 1 and year 9999 and its zone offset is minute-granular
and below one day; nanoseconds are within one second. -/
def RFCRange (t : GoTime) : Prop :=
  0 ≤ t.unixSec + 62135596800 + t.offsetSec ∧
  t.unixSec + 62135596800 + t.offsetSec < 315537897600 ∧
  t.offsetSec % 60 = 0 ∧ -86400 < t.offsetSec ∧ t.offsetSec < 86400 ∧
  0 ≤ t.nsec ∧ t.nsec < 1000000000

instance (t : GoTime) : Decidable (RFCRange t) := by
  unfold RFCRange
  infer_instance

/-- C6: the compiled request renders both time-window bounds with the one
RFC3339 formatter (date-time, explicit offset, second precision), and
parsing each rendered bound recovers the original instant truncated to the
second: the only loss is the sub-second part, below one second. -/
theorem c6_rfc3339_round_trip (q : QueryModel) (dq : DataQuery)
    (hf : RFCRange dq.timeRange.timeFrom) (ht : RFCRange dq.timeRange.timeTo) :
    (compileRequest q dq).timeFrom = formatRFC3339 dq.timeRange.timeFrom ∧
    (compileRequest q dq).timeTo = formatRFC3339 dq.timeRange.timeTo ∧
    parseRFC3339 ((compileRequest q dq).timeFrom) =
      some { unixSec := dq.timeRange.timeFrom.unixSec, nsec := 0,
             offsetSec := dq.timeRange.timeFrom.offsetSec } ∧
    parseRFC3339 ((compileRequest q dq).timeTo) =
      some { unixSec := dq.timeRange.timeTo.unixSec, nsec := 0,
             offsetSec := dq.timeRange.timeTo.offsetSec } := by
  obtain ⟨f1, f2, f3, f4, f5, _, _⟩ := hf
  obtain ⟨t1, t2, t3, t4, t5, _, _⟩ := ht
  exact ⟨rfl, rfl, parse_format _ f1 f2 f3 f4 f5, parse_format _ t1 t2 t3 t4 t5⟩

/-- Witness for C6 at the one-hour test window (offset-bearing start, UTC
end). -/
theorem c6_rfc3339_round_trip_witness :
    RFCRange dqTime.timeRange.timeFrom ∧ RFCRange dqTime.timeRange.timeTo ∧
    parseRFC3339 ((compileRequest qm0 dqTime).timeFrom) =
      some { unixSec := 1660916749, nsec := 0, offsetSec := 3600 } ∧
    parseRFC3339 ((compileRequest qm0 dqTime).timeTo) =
      some { unixSec := 1660920349, nsec := 0, offsetSec := 0 } := by
  refine ⟨by decide, by decide, ?_, ?_⟩
  · exact (c6_rfc3339_round_trip qm0 dqTime (by decide) (by decide)).2.2.1
  · exact (c6_rfc3339_round_trip qm0 dqTime (by decide) (by decide)).2.2.2

/-- C7: any path other than the ones the dispatcher recognizes (the exact
legacy alias and `projects` up to case) is answered with status 404 and
the plain body `No such path`; any spelling of `projects` ignoring case
invokes the project listing, returning its JSON encoding on success. -/
theorem c7_unknown_path_and_projects_ci (g : String × Option String)
    (client : ClientModel) (req : CallResourceRequest)
    (hg : req.path ≠ "gceDefaultProject") :
    (lowerAscii req.path ≠ "projects" →
      CallResource g client req = ({ status := 404, body := "No such path" }, [])) ∧
    (lowerAscii req.path = "projects" →
      (∀ l, client.listProjects = Except.ok l →
        CallResource g client req =
          ({ status := 200, body := jsonStringList (some l) }, [])) ∧
      (∀ e, client.listProjects = Except.error e →
        CallResource g client req =
          ({ status := 200, body := jsonStringList none }, [projWarnMsg e]))) := by
  constructor
  · intro h
    unfold CallResource
    rw [if_neg hg, if_pos h]
  · intro h
    constructor
    · intro l hl
      unfold CallResource
      rw [if_neg hg, if_neg (not_not_intro h), hl]
    · intro e hl
      unfold CallResource
      rw [if_neg hg, if_neg (not_not_intro h), hl]

/-- Witness for C7: an unknown path is refused, and an upper-case spelling
of `projects` reaches the project listing. -/
theorem c7_unknown_path_and_projects_ci_witness :
    ("PROJECTS" ≠ "gceDefaultProject") ∧ ("unknown" ≠ "gceDefaultProject") ∧
    CallResource ("", none) clientOk { path := "PROJECTS", params := [] } =
      ({ status := 200, body := jsonStringList (some ["project1", "project2"]) }, []) ∧
    CallResource ("", none) clientOk { path := "unknown", params := [] } =
      ({ status := 404, body := "No such path" }, []) := by
  refine ⟨by decide, by decide, ?_, ?_⟩
  · exact ((c7_unknown_path_and_projects_ci ("", none) clientOk
      { path := "PROJECTS", params := [] } (by decide)).2 (by decide)).1 _ rfl
  · exact (c7_unknown_path_and_projects_ci ("", none) clientOk
      { path := "unknown", params := [] } (by decide)).1 (by decide)

/-- C8: the compiled request's limit is MaxDataPoints unchanged (zero and
negative values included, since the limit is an arbitrary integer here),
and the query outcome depends on the client only through its answer at
that untouched request, so the value is passed through to the provider
verbatim. -/
theorem c8_limit_passthrough (q : QueryModel) (dq : DataQuery)
    (hq : dq.json = Except.ok q) :
    (compileRequest q dq).limit = dq.maxDataPoints ∧
    ∀ c₁ c₂ : ClientModel,
      c₁.listLogs (compileRequest q dq) = c₂.listLogs (compileRequest q dq) →
      query c₁ dq = query c₂ dq := by
  refine ⟨rfl, ?_⟩
  intro c₁ c₂ h
  simp [query, hq, h]

/-- Witness for C8 at a query with a negative MaxDataPoints. -/
theorem c8_limit_passthrough_witness :
    (dqNeg.json = Except.ok qm0) ∧ (compileRequest qm0 dqNeg).limit = -5 := by
  refine ⟨rfl, ?_⟩
  exact (c8_limit_passthrough qm0 dqNeg rfl).1

/-- C9: QueryData always returns a nil top-level error; its map has
pairwise distinct keys, which are exactly the refIDs occurring in the
batch, and each key is bound to the result of the last query carrying it,
so an earlier duplicate is silently overwritten. -/
theorem c9_querydata_map_semantics (client : ClientModel) (qs : List DataQuery) :
    (QueryData client qs).2 = none ∧
    ((QueryData client qs).1.map Prod.fst).Nodup ∧
    (∀ k, k ∈ (QueryData client qs).1.map Prod.fst ↔ k ∈ qs.map DataQuery.refID) ∧
    (∀ k, lookupStr (QueryData client qs).1 k =
      match lastWith qs k with
      | some dq => some (query client dq)
      | none => none) := by
  refine ⟨rfl, ?_, ?_, ?_⟩
  · exact respMap_fold_nodup client qs [] (by simp)
  · intro k
    have h := respMap_fold_mem client qs [] k
    simpa using h
  · intro k
    show lookupStr (qs.foldl _ []) k = _
    rw [respMap_fold_lookup]
    cases lastWith qs k <;> rfl

/-- C10: the legacy `gceDefaultProject` path is matched case-sensitively;
a failed default-project lookup only logs a warning and the response is
still status 200 with the JSON-encoded (possibly empty) project string,
while an alternate casing of the alias falls through to the 404 branch. -/
theorem c10_gce_default_project_warns (proj e : String) (client : ClientModel) :
    CallResource (proj, some e) client { path := "gceDefaultProject", params := [] } =
      ({ status := 200, body := jsonString proj }, [gceWarnMsg e]) ∧
    CallResource (proj, none) client { path := "gceDefaultProject", params := [] } =
      ({ status := 200, body := jsonString proj }, []) ∧
    CallResource (proj, some e) client { path := "gcedefaultproject", params := [] } =
      ({ status := 404, body := "No such path" }, []) := by
  exact ⟨rfl, rfl, rfl⟩
